import Mathlib

/-!
Verification development for the VozFinancas voice expense tracker.

The client (React single-page app) keeps an expense collection and a derived
summary in component state plus localStorage, executes tool calls coming from
a live conversational session, detects silence on the capture pipeline, plays
synthesized audio chunks through a FIFO queue, and tears recording resources
down in `stopRecording`.  The companion backend (`server.ts`) is a small
Express + SQLite CRUD API.

Amounts are modelled as rationals (JS numbers used as decimals), timestamps
and dates as the ISO strings the code manipulates, and `Date.now()` clock
readings as naturals.
-/

namespace VozFinancas

/-- Expense record as declared in the client (`interface Expense`):
id (from `Date.now()`), amount, description, category name and ISO date. -/
structure Expense where
  id : Nat
  amount : ℚ
  description : String
  category_name : String
  date : String
deriving DecidableEq, Repr

/-- One entry of `Summary.byCategory`: `{ name, total }`. -/
structure CategoryTotal where
  name : String
  total : ℚ
deriving DecidableEq, Repr

/-- Summary as declared in the client (`interface Summary`). -/
structure Summary where
  daily : ℚ
  byCategory : List CategoryTotal
deriving DecidableEq, Repr

/-- JS `String.prototype.startsWith`: character-wise check that `p` is a
leading piece of `s` (used as `e.date.startsWith(today)` in the client). -/
def strStartsWith (s p : String) : Bool :=
  p.data.isPrefixOf s.data

/-- One step of the `forEach` loop in `updateSummary`:
`categories[e.category_name] = (categories[e.category_name] || 0) + e.amount`.
A JS object with string keys keeps insertion order, so it is modelled as an
association list: an existing key is updated in place, a new key is appended. -/
def recordAdd : List (String × ℚ) → String → ℚ → List (String × ℚ)
  | [], k, v => [(k, v)]
  | (k', v') :: rest, k, v =>
      if k' = k then (k', v' + v) :: rest
      else (k', v') :: recordAdd rest k v

/-- The `categories` record built by `updateSummary` from the full expense list. -/
def categoriesRecord (allExpenses : List Expense) : List (String × ℚ) :=
  allExpenses.foldl (fun m e => recordAdd m e.category_name e.amount) []

/-- The client's `updateSummary(allExpenses)`: `daily` sums the amounts of the
expenses whose `date` starts with today's `YYYY-MM-DD` string, and
`byCategory` is `Object.entries` of the per-category accumulation record.
`today` is passed explicitly (`new Date().toISOString().split('T')[0]`). -/
def updateSummary (today : String) (allExpenses : List Expense) : Summary :=
  { daily :=
      (allExpenses.filter fun e => strStartsWith e.date today).foldl
        (fun sum e => sum + e.amount) 0,
    byCategory :=
      (categoriesRecord allExpenses).map fun p => { name := p.1, total := p.2 } }

/-- Specification helper for reasoning about the `categories` record: the sum
of the values of all entries carrying key `k` (for a record with no duplicate
keys this is the unique value at `k`, or 0 when absent). -/
def lookupTotal (m : List (String × ℚ)) (k : String) : ℚ :=
  ((m.filter fun p => p.1 == k).map fun p => p.2).sum

/-- Sample expense collection (two categories, one expense dated the day
before) used to instantiate the summary properties on concrete data. -/
def sampleExpenses : List Expense :=
  [⟨1, 40, "mercado", "Alimentação", "2026-10-11T10:00:00.000Z"⟩,
   ⟨2, 60, "uber", "Transporte", "2026-10-11T11:00:00.000Z"⟩,
   ⟨3, 10, "café", "Alimentação", "2026-10-10T09:00:00.000Z"⟩]

/-- Arguments of a tool call (`call.args`).  The live API delivers a JSON
object; the four fields the executor ever reads are modelled explicitly. -/
structure ToolArgs where
  amount : ℚ
  description : String
  category : String
  id : Nat
deriving DecidableEq, Repr

/-- A function call from the assistant (`call` in `message.toolCall.functionCalls`). -/
structure ToolCall where
  id : String
  name : String
  args : ToolArgs
deriving DecidableEq, Repr

/-- The possible values of `result` inside the executor: the add branch returns
`{ status: "success", expense }`, the list branch the expense array, the delete
branch `{ status: "success" }`, and the summary branch the summary object. -/
inductive ToolResult where
  | successExpense (expense : Expense)
  | expensesList (expenses : List Expense)
  | successAck
  | summaryResult (summary : Summary)
deriving DecidableEq, Repr

/-- The function response sent back through `session.sendToolResponse`:
`{ name: call.name, id: call.id, response: { result } }`.  `response = none`
models `result` left `undefined` (no branch matched the call name). -/
structure ToolResponse where
  name : String
  id : String
  response : Option ToolResult
deriving DecidableEq, Repr

/-- Client-visible mutable state written by `saveLocalData`: the persisted
expense list (localStorage plus the `expenses` state) and the summary set by
`setSummary`. -/
structure SessionState where
  stored : List Expense
  summaryState : Summary
deriving DecidableEq, Repr

/-- The `saveLocalData(newExpenses)` helper: persists the list and recomputes
the summary from exactly that list. -/
def saveLocalData (today : String) (newExpenses : List Expense) : SessionState :=
  { stored := newExpenses, summaryState := updateSummary today newExpenses }

/-- The new expense built in the `add_expense` branch:
`{ id: Date.now(), amount, description, category_name, date: new Date().toISOString() }`. -/
def mkExpense (now : Nat) (nowIso : String) (args : ToolArgs) : Expense :=
  { id := now, amount := args.amount, description := args.description,
    category_name := args.category, date := nowIso }

/-- One tool call handled by the `onmessage` executor.  `expensesC` and
`summaryC` are the `expenses` and `summary` values captured by the callback's
closure when the session was opened — the branches read those captured values,
not the current `SessionState` (this mirrors the source exactly).  `now` is
the `Date.now()` reading and `nowIso` the ISO timestamp for this call. -/
def stepCall (expensesC : List Expense) (summaryC : Summary) (today : String)
    (st : SessionState) (now : Nat) (nowIso : String) (call : ToolCall) :
    SessionState × ToolResponse :=
  if call.name = "add_expense" then
    let newExpense := mkExpense now nowIso call.args
    let updated := expensesC ++ [newExpense]
    (saveLocalData today updated,
     { name := call.name, id := call.id,
       response := some (ToolResult.successExpense newExpense) })
  else if call.name = "get_expenses" then
    (st, { name := call.name, id := call.id,
           response := some (ToolResult.expensesList expensesC) })
  else if call.name = "delete_expense" then
    let updated := expensesC.filter fun e => e.id != call.args.id
    (saveLocalData today updated,
     { name := call.name, id := call.id,
       response := some ToolResult.successAck })
  else if call.name = "get_summary" then
    (st, { name := call.name, id := call.id,
           response := some (ToolResult.summaryResult summaryC) })
  else
    (st, { name := call.name, id := call.id, response := none })

/-- Runs a session's tool calls in arrival order.  The closure values
`expensesC` and `summaryC` stay fixed for the whole session, exactly as the
`onmessage` closure keeps the state snapshot taken when `ai.live.connect`
ran; each call carries its own clock reading `(now, nowIso)`. -/
def runSession (expensesC : List Expense) (summaryC : Summary) (today : String) :
    SessionState → List (Nat × String × ToolCall) → SessionState × List ToolResponse
  | st, [] => (st, [])
  | st, (now, nowIso, call) :: rest =>
      let step := stepCall expensesC summaryC today st now nowIso call
      let tail := runSession expensesC summaryC today step.1 rest
      (tail.1, step.2 :: tail.2)

/-- State of the audio playback machinery: the `audioQueue` ref (decoded
`Int16Array` chunks, modelled as lists of integers), the `isPlaying` flag, and
a log of the chunks handed to `createBufferSource`/`start`, in render order. -/
structure PlaybackState where
  audioQueue : List (List Int)
  isPlaying : Bool
  rendered : List (List Int)
deriving DecidableEq, Repr

/-- The client's `playNextInQueue`: returns immediately when the queue is
empty or something is already playing; otherwise sets `isPlaying`, shifts the
oldest chunk off the queue and starts rendering it. -/
def playNextInQueue (st : PlaybackState) : PlaybackState :=
  match st.audioQueue, st.isPlaying with
  | [], _ => st
  | _ :: _, true => st
  | chunk :: rest, false =>
      { audioQueue := rest, isPlaying := true, rendered := st.rendered ++ [chunk] }

/-- The `source.onended` callback: clears `isPlaying` and re-drains the queue. -/
def onEnded (st : PlaybackState) : PlaybackState :=
  playNextInQueue { st with isPlaying := false }

/-- The inbound-audio path of `onmessage`: `audioQueue.current.push(bytes)`
followed by `playNextInQueue()`. -/
def enqueueChunk (st : PlaybackState) (chunk : List Int) : PlaybackState :=
  playNextInQueue { st with audioQueue := st.audioQueue ++ [chunk] }

/-- The `serverContent.interrupted` path: clears the queue and the flag. -/
def interruptPlayback (st : PlaybackState) : PlaybackState :=
  { st with audioQueue := [], isPlaying := false }

/-- Events driving the playback queue on the cooperative timeline. -/
inductive PlaybackEvent where
  | enqueue (chunk : List Int)
  | ended
deriving DecidableEq, Repr

/-- One playback event. -/
def playbackStep (st : PlaybackState) : PlaybackEvent → PlaybackState
  | PlaybackEvent.enqueue chunk => enqueueChunk st chunk
  | PlaybackEvent.ended => onEnded st

/-- Folds a sequence of playback events. -/
def runPlayback (st : PlaybackState) (events : List PlaybackEvent) : PlaybackState :=
  events.foldl playbackStep st

/-- The idle playback state: empty queue, nothing playing, nothing rendered. -/
def idlePlayback : PlaybackState :=
  { audioQueue := [], isPlaying := false, rendered := [] }

/-- State of the silence detector: the pending `setTimeout` deadline held in
`silenceTimerRef` (set time + 3000 ms), whether `stopRecording` already ran
(after which the processor is disconnected and no further blocks arrive), and
how many times session termination was signalled. -/
structure SilenceState where
  timer : Option Nat
  stopped : Bool
  fires : Nat
deriving DecidableEq, Repr

/-- Silence test of one capture block: the byte frequency data is averaged and
compared against the fixed threshold, `average < 15`.  For positive length
`sum / length < 15` is exactly `sum < 15 * length`; an empty array gives
`NaN < 15 = false` in JS and `0 < 0 = false` here. -/
def isSilent (freqData : List Nat) : Bool :=
  freqData.sum < 15 * freqData.length

/-- The block body of `onaudioprocess`: below threshold, a timer is armed only
if none is pending (deadline `t + 3000`); at or above threshold any pending
timer is cleared. -/
def processBlock (st : SilenceState) (t : Nat) (freqData : List Nat) : SilenceState :=
  if isSilent freqData then
    match st.timer with
    | none => { st with timer := some (t + 3000) }
    | some _ => st
  else
    { st with timer := none }

/-- One capture block at time `t`.  On the cooperative timeline a pending
timer whose deadline has been reached fires first: its callback runs
`stopRecording`, which clears the timer and disconnects the processor, so the
block itself is never processed.  After `stopRecording` no blocks run at all. -/
def silenceStep (st : SilenceState) (t : Nat) (freqData : List Nat) : SilenceState :=
  if st.stopped then st
  else
    match st.timer with
    | some deadline =>
        if deadline ≤ t then
          { timer := none, stopped := true, fires := st.fires + 1 }
        else processBlock st t freqData
    | none => processBlock st t freqData

/-- Folds a run of capture blocks `(time, freqData)` through the detector. -/
def runSilence (st : SilenceState) (blocks : List (Nat × List Nat)) : SilenceState :=
  blocks.foldl (fun s b => silenceStep s b.1 b.2) st

/-- Detector state when recording starts: no pending timer, not stopped. -/
def initSilence : SilenceState :=
  { timer := none, stopped := false, fires := 0 }

/-- The actual release calls `stopRecording` performs on acquired handles:
`track.stop()` on the stream, `processor.disconnect()`, `clearTimeout` on the
silence timer, and `session.close()`. -/
inductive ReleaseAction where
  | stopTracks (handle : Nat)
  | disconnectProcessor (handle : Nat)
  | clearSilenceTimer (handle : Nat)
  | closeSession (handle : Nat)
deriving DecidableEq, Repr

/-- The refs and UI state that `stopRecording` touches.  Each ref holds an
abstract handle when the resource was acquired and `none` otherwise. -/
structure RecorderState where
  streamRef : Option Nat
  processorRef : Option Nat
  silenceTimerRef : Option Nat
  sessionRef : Option Nat
  isRecording : Bool
  status : String
deriving DecidableEq, Repr

/-- The client's `stopRecording`: each of the four refs is released and
nulled only if it holds a resource, then the recording flag and status are
reset.  Returns the new state together with the release calls performed. -/
def stopRecording (s : RecorderState) : RecorderState × List ReleaseAction :=
  let streamActs := match s.streamRef with
    | some h => [ReleaseAction.stopTracks h]
    | none => []
  let processorActs := match s.processorRef with
    | some h => [ReleaseAction.disconnectProcessor h]
    | none => []
  let timerActs := match s.silenceTimerRef with
    | some h => [ReleaseAction.clearSilenceTimer h]
    | none => []
  let sessionActs := match s.sessionRef with
    | some h => [ReleaseAction.closeSession h]
    | none => []
  ({ streamRef := none, processorRef := none, silenceTimerRef := none,
     sessionRef := none, isRecording := false, status := "Pronto para ouvir" },
   streamActs ++ processorActs ++ timerActs ++ sessionActs)

/-- Row of the backend `categories` table. -/
structure Category where
  id : Nat
  name : String
deriving DecidableEq, Repr

/-- Row of the backend `expenses` table (`date` defaults to the current
timestamp; `category_id` references `categories.id`). -/
structure ServerExpense where
  id : Nat
  amount : ℚ
  description : String
  category_id : Nat
  date : String
deriving DecidableEq, Repr

/-- Backend SQLite database: the two tables plus their AUTOINCREMENT
counters (the next rowid each table will assign). -/
structure ServerDB where
  categories : List Category
  expenses : List ServerExpense
  nextCategoryId : Nat
  nextExpenseId : Nat
deriving DecidableEq, Repr

/-- Database after the schema setup in `server.ts`: the six seeded
categories with rowids 1..6. -/
def initialDB : ServerDB :=
  { categories :=
      [⟨1, "Alimentação"⟩, ⟨2, "Transporte"⟩, ⟨3, "Lazer"⟩,
       ⟨4, "Saúde"⟩, ⟨5, "Educação"⟩, ⟨6, "Outros"⟩],
    expenses := [], nextCategoryId := 7, nextExpenseId := 1 }

/-- JSON body answered by `POST /api/expenses`. -/
structure PostExpenseResult where
  id : Nat
  status : String
deriving DecidableEq, Repr

/-- The `SELECT id FROM categories WHERE name = ?` lookup. -/
def findCategory (db : ServerDB) (name : String) : Option Category :=
  db.categories.find? fun c => c.name == name

/-- The `POST /api/expenses` handler: find-or-create the category by name,
then insert the expense linked to the category id, answering
`{ id: lastInsertRowid, status: "success" }`.  `now` is the row's default
timestamp. -/
def postExpense (db : ServerDB) (now : String) (amount : ℚ)
    (description : String) (category : String) : ServerDB × PostExpenseResult :=
  let found := findCategory db category
  let db1 : ServerDB := match found with
    | some _ => db
    | none =>
        { db with
          categories := db.categories ++ [{ id := db.nextCategoryId, name := category }],
          nextCategoryId := db.nextCategoryId + 1 }
  let catId := match found with
    | some c => c.id
    | none => db.nextCategoryId
  let newExpense : ServerExpense :=
    { id := db1.nextExpenseId, amount := amount, description := description,
      category_id := catId, date := now }
  ({ db1 with
      expenses := db1.expenses ++ [newExpense],
      nextExpenseId := db1.nextExpenseId + 1 },
   { id := db1.nextExpenseId, status := "success" })

theorem filter_id_ne_eq_self (l : List Expense) (tid : Nat) (h : ∀ e ∈ l, e.id ≠ tid) :
    (l.filter fun e => e.id != tid) = l := by
  induction l with
  | nil => rfl
  | cons a l ih =>
      have ha : (a.id != tid) = true := bne_iff_ne.mpr (h a (List.mem_cons_self a l))
      simp only [List.filter_cons, ha, if_true]
      rw [ih fun e he => h e (List.mem_cons_of_mem a he)]

/-- C1: the claim says a `get_summary` following `add_expense` calls in the
same session reflects those adds.  The code violates this: the `onmessage`
closure captures the `expenses` and `summary` React state from when the
session was opened, so `get_summary` answers with the stale summary (here
`{daily: 0, byCategory: []}` instead of one including 25.00), and a second
`add_expense` rebuilds from the stale list, dropping the first add (daily
ends at 60.00, not 100.00).  This theorem evaluates the embedded code at
both failing scenarios. -/
theorem C1_get_summary_ignores_session_adds :
    ((runSession [] ⟨0, []⟩ "2026-10-11" ⟨[], ⟨0, []⟩⟩
        [(1000, "2026-10-11T12:00:00.000Z",
          ⟨"call-1", "add_expense", ⟨25, "café", "Alimentação", 0⟩⟩),
         (2000, "2026-10-11T12:00:00.000Z",
          ⟨"call-2", "get_summary", ⟨0, "", "", 0⟩⟩)]).2
      = [⟨"add_expense", "call-1",
          some (ToolResult.successExpense
            ⟨1000, 25, "café", "Alimentação", "2026-10-11T12:00:00.000Z"⟩)⟩,
         ⟨"get_summary", "call-2",
          some (ToolResult.summaryResult ⟨0, []⟩)⟩])
    ∧ (runSession [] ⟨0, []⟩ "2026-10-11" ⟨[], ⟨0, []⟩⟩
        [(1000, "2026-10-11T12:00:00.000Z",
          ⟨"call-1", "add_expense", ⟨40, "mercado", "Alimentação", 0⟩⟩),
         (1500, "2026-10-11T12:00:01.000Z",
          ⟨"call-2", "add_expense", ⟨60, "uber", "Transporte", 0⟩⟩),
         (2000, "2026-10-11T12:00:02.000Z",
          ⟨"call-3", "get_summary", ⟨0, "", "", 0⟩⟩)]).1
      = ⟨[⟨1500, 60, "uber", "Transporte", "2026-10-11T12:00:01.000Z"⟩],
         ⟨60, [⟨"Transporte", 60⟩]⟩⟩ := by
  refine ⟨rfl, ?_⟩
  norm_num [runSession, stepCall, saveLocalData, updateSummary, categoriesRecord,
    recordAdd, mkExpense, strStartsWith]
  rfl

/-- C3 counterexample: the claim says a call with empty description or
category adds no Expense.  The `add_expense` branch performs no validation at
all: with `description = ""` and `category = ""` an expense is still created
and persisted. -/
theorem C3_empty_fields_still_added :
    (stepCall [] ⟨0, []⟩ "2026-10-11" ⟨[], ⟨0, []⟩⟩ 1000 "2026-10-11T12:00:00.000Z"
        ⟨"call-3", "add_expense", ⟨5, "", "", 0⟩⟩).1.stored
      = [⟨1000, 5, "", "", "2026-10-11T12:00:00.000Z"⟩] := by
  decide

/-- C3 amended: `add_expense` unconditionally creates, persists and returns
the new Expense, whatever the arguments are (no validation of amount,
description or category). -/
theorem C3_add_expense_unconditional (expensesC : List Expense) (summaryC : Summary)
    (today : String) (st : SessionState) (now : Nat) (nowIso : String)
    (callId : String) (args : ToolArgs) :
    stepCall expensesC summaryC today st now nowIso ⟨callId, "add_expense", args⟩
      = (saveLocalData today (expensesC ++ [mkExpense now nowIso args]),
         ⟨"add_expense", callId,
          some (ToolResult.successExpense (mkExpense now nowIso args))⟩) :=
  rfl

/-- C4 counterexample: the claim says an unknown tool name yields a response
tagged `UnsupportedTool`.  The executor has no such tag: no branch matches,
`result` stays undefined, and the response sent for the call carries its id
with an undefined result (`none`) — no error tag of any kind. -/
theorem C4_unknown_tool_untagged :
    (stepCall [] ⟨0, []⟩ "2026-10-11" ⟨[], ⟨0, []⟩⟩ 1000 "2026-10-11T12:00:00.000Z"
        ⟨"call-9", "unknown_tool", ⟨0, "", "", 0⟩⟩).2
      = ⟨"unknown_tool", "call-9", none⟩ := by
  decide

/-- C4 amended: for every call whose name is none of the four supported
tools, the executor does not throw, leaves the state unchanged, and still
sends a response carrying the originating call's id — but its result is
undefined (`none`), not an `UnsupportedTool` tag. -/
theorem C4_unknown_tool_still_answered (expensesC : List Expense) (summaryC : Summary)
    (today : String) (st : SessionState) (now : Nat) (nowIso : String) (call : ToolCall)
    (h : call.name ∉ ["add_expense", "get_expenses", "delete_expense", "get_summary"]) :
    stepCall expensesC summaryC today st now nowIso call
      = (st, ⟨call.name, call.id, none⟩) := by
  have h1 : ¬ call.name = "add_expense" := fun hh => h (by simp [hh])
  have h2 : ¬ call.name = "get_expenses" := fun hh => h (by simp [hh])
  have h3 : ¬ call.name = "delete_expense" := fun hh => h (by simp [hh])
  have h4 : ¬ call.name = "get_summary" := fun hh => h (by simp [hh])
  simp [stepCall, h1, h2, h3, h4]

theorem C4_unknown_tool_still_answered_witness :
    stepCall [] ⟨0, []⟩ "2026-10-11" ⟨[], ⟨0, []⟩⟩ 5 "2026-10-11T12:00:00.000Z"
        ⟨"w-1", "weird_tool", ⟨0, "", "", 0⟩⟩
      = (⟨[], ⟨0, []⟩⟩, ⟨"weird_tool", "w-1", none⟩) :=
  C4_unknown_tool_still_answered [] ⟨0, []⟩ "2026-10-11" ⟨[], ⟨0, []⟩⟩ 5
    "2026-10-11T12:00:00.000Z" ⟨"w-1", "weird_tool", ⟨0, "", "", 0⟩⟩ (by decide)

/-- C5 counterexample: the claim says deleting an id that matches no expense
in the collection leaves the collection and summary unchanged.  After a prior
in-session mutation this fails, because the delete branch filters the stale
session-open snapshot, not the current store.  Starting from an empty store,
`add_expense(25, "café", "Alimentação")` grows the store to one expense with
id 1000 (second and third conjuncts), yet `delete_expense(999)` — 999 matches
nothing — then resets the store to the filtered empty snapshot, dropping the
freshly added expense: the collection and summary do change (first conjunct). -/
theorem C5_delete_absent_id_can_change_store :
    ((runSession [] ⟨0, []⟩ "2026-10-11" ⟨[], ⟨0, []⟩⟩
        [(1000, "2026-10-11T12:00:00.000Z",
          ⟨"call-1", "add_expense", ⟨25, "café", "Alimentação", 0⟩⟩),
         (2000, "2026-10-11T12:00:01.000Z",
          ⟨"call-2", "delete_expense", ⟨0, "", "", 999⟩⟩)]).1
      = ⟨[], ⟨0, []⟩⟩)
    ∧ (stepCall [] ⟨0, []⟩ "2026-10-11" ⟨[], ⟨0, []⟩⟩ 1000 "2026-10-11T12:00:00.000Z"
        ⟨"call-1", "add_expense", ⟨25, "café", "Alimentação", 0⟩⟩).1.stored
      = [⟨1000, 25, "café", "Alimentação", "2026-10-11T12:00:00.000Z"⟩]
    ∧ 999 ∉ ([⟨1000, 25, "café", "Alimentação", "2026-10-11T12:00:00.000Z"⟩] :
          List Expense).map Expense.id := by
  refine ⟨?_, by decide, by decide⟩
  decide

/-- C5 amended: for every id matching no expense in the executor's
session-open snapshot, `delete_expense` still answers a success
acknowledgment and persists the snapshot unchanged (with the summary
recomputed from it) as the new store — regardless of the current store.  The
Expense collection and Summary are therefore left unchanged exactly when the
store still equals the snapshot (no prior in-session mutation); otherwise the
store is reset to the snapshot, dropping in-session mutations. -/
theorem C5_delete_absent_persists_snapshot (expensesC : List Expense) (summaryC : Summary)
    (today : String) (st : SessionState) (now : Nat) (nowIso : String)
    (callId : String) (args : ToolArgs)
    (h : ∀ e ∈ expensesC, e.id ≠ args.id) :
    stepCall expensesC summaryC today st now nowIso ⟨callId, "delete_expense", args⟩
      = (⟨expensesC, updateSummary today expensesC⟩,
         ⟨"delete_expense", callId, some ToolResult.successAck⟩) := by
  have hf := filter_id_ne_eq_self expensesC args.id h
  simp [stepCall, saveLocalData, hf]

theorem C5_delete_absent_persists_snapshot_witness :
    stepCall [⟨1, 10, "almoço", "Outros", "2026-10-11T00:00:00.000Z"⟩] ⟨0, []⟩
        "2026-10-11"
        ⟨[⟨1, 10, "almoço", "Outros", "2026-10-11T00:00:00.000Z"⟩,
          ⟨2, 20, "café", "Lazer", "2026-10-11T01:00:00.000Z"⟩], ⟨0, []⟩⟩
        2000 "2026-10-11T12:00:00.000Z" ⟨"call-5", "delete_expense", ⟨0, "", "", 99⟩⟩
      = (⟨[⟨1, 10, "almoço", "Outros", "2026-10-11T00:00:00.000Z"⟩],
          updateSummary "2026-10-11" [⟨1, 10, "almoço", "Outros", "2026-10-11T00:00:00.000Z"⟩]⟩,
         ⟨"delete_expense", "call-5", some ToolResult.successAck⟩) :=
  C5_delete_absent_persists_snapshot [⟨1, 10, "almoço", "Outros", "2026-10-11T00:00:00.000Z"⟩]
    ⟨0, []⟩ "2026-10-11"
    ⟨[⟨1, 10, "almoço", "Outros", "2026-10-11T00:00:00.000Z"⟩,
      ⟨2, 20, "café", "Lazer", "2026-10-11T01:00:00.000Z"⟩], ⟨0, []⟩⟩
    2000 "2026-10-11T12:00:00.000Z" "call-5" ⟨0, "", "", 99⟩ (by decide)

/-- C6 counterexample: the claim says a freshly created expense's id is
distinct from all ids already in the collection, even for back-to-back
creations.  The id is just `Date.now()`: adding at clock value 1000 while an
expense with id 1000 already exists yields two expenses with the same id. -/
theorem C6_clock_collision_duplicates_id :
    ((stepCall [⟨1000, 10, "pão", "Outros", "2026-10-10T00:00:00.000Z"⟩] ⟨0, []⟩
        "2026-10-11" ⟨[⟨1000, 10, "pão", "Outros", "2026-10-10T00:00:00.000Z"⟩], ⟨0, []⟩⟩
        1000 "2026-10-11T09:00:00.000Z"
        ⟨"call-6", "add_expense", ⟨7, "café", "Lazer", 0⟩⟩).1.stored.map Expense.id)
      = [1000, 1000] := by
  decide

/-- C6 amended: the created expense's identifier is the current clock value
(`Date.now()`); it is distinct from the identifiers already in the collection
exactly when the clock value differs from every existing identifier — two
creations in the same millisecond, or a creation whose clock value equals an
existing id, collide. -/
theorem C6_id_is_clock_value (expensesC : List Expense) (summaryC : Summary)
    (today : String) (st : SessionState) (now : Nat) (nowIso : String)
    (callId : String) (args : ToolArgs)
    (h : now ∉ expensesC.map Expense.id) :
    ((stepCall expensesC summaryC today st now nowIso
        ⟨callId, "add_expense", args⟩).1.stored
      = expensesC ++ [mkExpense now nowIso args])
    ∧ (mkExpense now nowIso args).id = now
    ∧ ∀ e ∈ expensesC, e.id ≠ (mkExpense now nowIso args).id := by
  refine ⟨rfl, rfl, fun e he heq => h ?_⟩
  have h2 : e.id = now := heq
  exact h2 ▸ List.mem_map_of_mem Expense.id he

theorem C6_id_is_clock_value_witness :
    ((stepCall [⟨1000, 10, "pão", "Outros", "2026-10-10T00:00:00.000Z"⟩] ⟨0, []⟩
        "2026-10-11" ⟨[⟨1000, 10, "pão", "Outros", "2026-10-10T00:00:00.000Z"⟩], ⟨0, []⟩⟩
        1042 "2026-10-11T09:00:00.000Z"
        ⟨"call-7", "add_expense", ⟨7, "café", "Lazer", 0⟩⟩).1.stored
      = [⟨1000, 10, "pão", "Outros", "2026-10-10T00:00:00.000Z"⟩,
         mkExpense 1042 "2026-10-11T09:00:00.000Z" ⟨7, "café", "Lazer", 0⟩])
    ∧ (mkExpense 1042 "2026-10-11T09:00:00.000Z" ⟨7, "café", "Lazer", 0⟩).id = 1042
    ∧ ∀ e ∈ [(⟨1000, 10, "pão", "Outros", "2026-10-10T00:00:00.000Z"⟩ : Expense)],
        e.id ≠ (mkExpense 1042 "2026-10-11T09:00:00.000Z" ⟨7, "café", "Lazer", 0⟩).id :=
  C6_id_is_clock_value [⟨1000, 10, "pão", "Outros", "2026-10-10T00:00:00.000Z"⟩] ⟨0, []⟩
    "2026-10-11" ⟨[⟨1000, 10, "pão", "Outros", "2026-10-10T00:00:00.000Z"⟩], ⟨0, []⟩⟩
    1042 "2026-10-11T09:00:00.000Z" "call-7" ⟨7, "café", "Lazer", 0⟩ (by decide)

theorem playNextInQueue_playing (q : List (List Int)) (r : List (List Int)) :
    playNextInQueue ⟨q, true, r⟩ = ⟨q, true, r⟩ := by
  cases q <;> rfl

theorem runPlayback_enqueues_while_playing (cs : List (List Int)) (q r : List (List Int)) :
    runPlayback ⟨q, true, r⟩ (cs.map PlaybackEvent.enqueue) = ⟨q ++ cs, true, r⟩ := by
  induction cs generalizing q with
  | nil => simp [runPlayback]
  | cons c cs ih =>
      have h1 : playbackStep ⟨q, true, r⟩ (PlaybackEvent.enqueue c) = ⟨q ++ [c], true, r⟩ := by
        rw [playbackStep, enqueueChunk]
        exact playNextInQueue_playing (q ++ [c]) r
      calc runPlayback ⟨q, true, r⟩ ((c :: cs).map PlaybackEvent.enqueue)
          = runPlayback ⟨q ++ [c], true, r⟩ (cs.map PlaybackEvent.enqueue) := by
            simp [runPlayback, h1]
        _ = ⟨(q ++ [c]) ++ cs, true, r⟩ := ih (q ++ [c])
        _ = ⟨q ++ c :: cs, true, r⟩ := by simp

theorem runPlayback_drains (q : List (List Int)) (r : List (List Int)) :
    runPlayback ⟨q, true, r⟩ (List.replicate (q.length + 1) PlaybackEvent.ended)
      = ⟨[], false, r ++ q⟩ := by
  induction q generalizing r with
  | nil => simp [runPlayback, playbackStep, onEnded, playNextInQueue]
  | cons c q ih =>
      have h1 : playbackStep ⟨c :: q, true, r⟩ PlaybackEvent.ended
          = ⟨q, true, r ++ [c]⟩ := rfl
      calc runPlayback ⟨c :: q, true, r⟩
              (List.replicate ((c :: q).length + 1) PlaybackEvent.ended)
          = runPlayback ⟨q, true, r ++ [c]⟩
              (List.replicate (q.length + 1) PlaybackEvent.ended) := by
            simp [runPlayback, List.replicate_succ, h1]
        _ = ⟨[], false, (r ++ [c]) ++ q⟩ := ih (r ++ [c])
        _ = ⟨[], false, r ++ c :: q⟩ := by simp

/-- C8: enqueuing N chunks into the idle playback queue, with each render's
completion re-entering the drain loop, renders exactly those N chunks in
enqueue order and ends idle again; and after the enqueues alone only the
first chunk has started rendering (the `isPlaying` flag keeps every other
chunk queued until a completion event, so renders never overlap). -/
theorem C8_playback_fifo (cs : List (List Int)) :
    (runPlayback idlePlayback
        (cs.map PlaybackEvent.enqueue ++ List.replicate cs.length PlaybackEvent.ended)
      = ⟨[], false, cs⟩)
    ∧ ∀ c cs', runPlayback idlePlayback ((c :: cs').map PlaybackEvent.enqueue)
        = ⟨cs', true, [c]⟩ := by
  have hstart : ∀ c : List Int, playbackStep idlePlayback (PlaybackEvent.enqueue c)
      = ⟨[], true, [c]⟩ := fun c => rfl
  constructor
  · cases cs with
    | nil => rfl
    | cons c cs =>
        rw [runPlayback, List.foldl_append]
        have h2 : List.foldl playbackStep idlePlayback
            ((c :: cs).map PlaybackEvent.enqueue) = ⟨cs, true, [c]⟩ := by
          simp only [List.map_cons, List.foldl_cons, hstart c]
          exact runPlayback_enqueues_while_playing cs [] [c]
        rw [h2]
        have h3 := runPlayback_drains cs [c]
        simpa [runPlayback] using h3
  · intro c cs'
    simp only [runPlayback, List.map_cons, List.foldl_cons, hstart c]
    exact runPlayback_enqueues_while_playing cs' [] [c]

/-- C9: `stopRecording` resets all four resource refs (microphone stream,
processor node, silence timer, session) in one step, releasing exactly the
resources that were acquired — each independently of the others — and calling
it again on the already-stopped state changes nothing and performs no release
call at all (idempotent, no double-release). -/
theorem C9_stop_recording_releases_all_idempotent (s : RecorderState) :
    ((stopRecording s).1
        = ⟨none, none, none, none, false, "Pronto para ouvir"⟩)
    ∧ (∀ h, s.streamRef = some h →
        ReleaseAction.stopTracks h ∈ (stopRecording s).2)
    ∧ (∀ h, s.processorRef = some h →
        ReleaseAction.disconnectProcessor h ∈ (stopRecording s).2)
    ∧ (∀ h, s.silenceTimerRef = some h →
        ReleaseAction.clearSilenceTimer h ∈ (stopRecording s).2)
    ∧ (∀ h, s.sessionRef = some h →
        ReleaseAction.closeSession h ∈ (stopRecording s).2)
    ∧ stopRecording (stopRecording s).1 = ((stopRecording s).1, []) := by
  refine ⟨rfl, ?_, ?_, ?_, ?_, rfl⟩ <;> intro hh heq <;> simp [stopRecording, heq]

theorem C9_stop_recording_witness :
    ((stopRecording ⟨some 1, none, some 3, none, true, "Ouvindo..."⟩).1
        = ⟨none, none, none, none, false, "Pronto para ouvir"⟩)
    ∧ ReleaseAction.stopTracks 1
        ∈ (stopRecording ⟨some 1, none, some 3, none, true, "Ouvindo..."⟩).2
    ∧ ReleaseAction.clearSilenceTimer 3
        ∈ (stopRecording ⟨some 1, none, some 3, none, true, "Ouvindo..."⟩).2
    ∧ stopRecording (stopRecording ⟨some 1, none, some 3, none, true, "Ouvindo..."⟩).1
        = ((stopRecording ⟨some 1, none, some 3, none, true, "Ouvindo..."⟩).1, []) :=
  ⟨(C9_stop_recording_releases_all_idempotent ⟨some 1, none, some 3, none, true, "Ouvindo..."⟩).1,
   (C9_stop_recording_releases_all_idempotent ⟨some 1, none, some 3, none, true, "Ouvindo..."⟩).2.1 1 rfl,
   (C9_stop_recording_releases_all_idempotent ⟨some 1, none, some 3, none, true, "Ouvindo..."⟩).2.2.2.1 3 rfl,
   (C9_stop_recording_releases_all_idempotent ⟨some 1, none, some 3, none, true, "Ouvindo..."⟩).2.2.2.2.2⟩

/-- C10: a `POST /api/expenses` whose category name has no row in the
`categories` table first inserts the category (under the next category
rowid), then inserts the expense linked to that fresh category id, and
answers `{ id, status: "success" }` — find-or-create, never a foreign-key
failure. -/
theorem C10_post_creates_missing_category (db : ServerDB) (now : String) (amount : ℚ)
    (description : String) (category : String)
    (h : ∀ c ∈ db.categories, c.name ≠ category) :
    ((postExpense db now amount description category).1.categories
        = db.categories ++ [⟨db.nextCategoryId, category⟩])
    ∧ ((postExpense db now amount description category).1.expenses
        = db.expenses ++ [⟨db.nextExpenseId, amount, description, db.nextCategoryId, now⟩])
    ∧ (postExpense db now amount description category).2
        = ⟨db.nextExpenseId, "success"⟩ := by
  have hfind : findCategory db category = none := by
    rw [findCategory, List.find?_eq_none]
    intro c hc
    simpa using h c hc
  refine ⟨?_, ?_, ?_⟩ <;> simp [postExpense, hfind]

theorem C10_post_creates_missing_category_witness :
    ((postExpense initialDB "2026-10-11 12:00:00" 10 "passagem" "Viagens").1.categories
        = initialDB.categories ++ [⟨initialDB.nextCategoryId, "Viagens"⟩])
    ∧ ((postExpense initialDB "2026-10-11 12:00:00" 10 "passagem" "Viagens").1.expenses
        = initialDB.expenses
          ++ [⟨initialDB.nextExpenseId, 10, "passagem", initialDB.nextCategoryId,
               "2026-10-11 12:00:00"⟩])
    ∧ (postExpense initialDB "2026-10-11 12:00:00" 10 "passagem" "Viagens").2
        = ⟨initialDB.nextExpenseId, "success"⟩ :=
  C10_post_creates_missing_category initialDB "2026-10-11 12:00:00" 10 "passagem" "Viagens"
    (by decide)

theorem runSilence_stopped (st : SilenceState) (blocks : List (Nat × List Nat))
    (h : st.stopped = true) :
    runSilence st blocks = st := by
  induction blocks with
  | nil => rfl
  | cons b bs ih =>
      have h1 : silenceStep st b.1 b.2 = st := by simp [silenceStep, h]
      simp [runSilence, h1]
      simpa [runSilence] using ih

theorem runSilence_armed_fires (D f : Nat) (bs : List (Nat × List Nat))
    (hsil : ∀ b ∈ bs, isSilent b.2 = true) (hex : ∃ b ∈ bs, D ≤ b.1) :
    runSilence ⟨some D, false, f⟩ bs = ⟨none, true, f + 1⟩ := by
  induction bs with
  | nil => simp at hex
  | cons b bs ih =>
      by_cases hd : D ≤ b.1
      · have h1 : silenceStep ⟨some D, false, f⟩ b.1 b.2 = ⟨none, true, f + 1⟩ := by
          simp [silenceStep, hd]
        have h2 := runSilence_stopped ⟨none, true, f + 1⟩ bs rfl
        calc runSilence ⟨some D, false, f⟩ (b :: bs)
            = runSilence ⟨none, true, f + 1⟩ bs := by simp [runSilence, h1]
          _ = ⟨none, true, f + 1⟩ := h2
      · have hb : isSilent b.2 = true := hsil b (List.mem_cons_self b bs)
        have h1 : silenceStep ⟨some D, false, f⟩ b.1 b.2 = ⟨some D, false, f⟩ := by
          simp [silenceStep, hd, processBlock, hb]
        have hex' : ∃ b ∈ bs, D ≤ b.1 := by
          rcases hex with ⟨x, hx, hDx⟩
          rcases List.mem_cons.mp hx with hx0 | hx1
          · exact absurd (hx0 ▸ hDx) hd
          · exact ⟨x, hx1, hDx⟩
        have ih' := ih (fun x hx => hsil x (List.mem_cons_of_mem b hx)) hex'
        calc runSilence ⟨some D, false, f⟩ (b :: bs)
            = runSilence ⟨some D, false, f⟩ bs := by simp [runSilence, h1]
          _ = ⟨none, true, f + 1⟩ := ih'

theorem runSilence_armed_quiet (D f : Nat) (bs : List (Nat × List Nat))
    (hsil : ∀ b ∈ bs, isSilent b.2 = true) (hlt : ∀ b ∈ bs, b.1 < D) :
    runSilence ⟨some D, false, f⟩ bs = ⟨some D, false, f⟩ := by
  induction bs with
  | nil => rfl
  | cons b bs ih =>
      have hd : ¬ D ≤ b.1 := Nat.not_le.mpr (hlt b (List.mem_cons_self b bs))
      have hb : isSilent b.2 = true := hsil b (List.mem_cons_self b bs)
      have h1 : silenceStep ⟨some D, false, f⟩ b.1 b.2 = ⟨some D, false, f⟩ := by
        simp [silenceStep, hd, processBlock, hb]
      have ih' := ih (fun x hx => hsil x (List.mem_cons_of_mem b hx))
        (fun x hx => hlt x (List.mem_cons_of_mem b hx))
      calc runSilence ⟨some D, false, f⟩ (b :: bs)
          = runSilence ⟨some D, false, f⟩ bs := by simp [runSilence, h1]
        _ = ⟨some D, false, f⟩ := ih'

/-- C7: starting from a silent block at time `t0` (which arms the 3000 ms
timer), (i) if every following block is also silent and some block arrives at
or after the deadline `t0 + 3000`, the detector signals termination exactly
once — one `stopRecording` firing, after which the processor is gone and the
state is terminal; (ii) if instead every block stays before the deadline and
the run ends with a block at or above the threshold, the pending timer is
cancelled and the detector returns to the initial state — zero firings, and
nothing pending that could fire later. -/
theorem C7_silence_timer (t0 : Nat) (d0 : List Nat) (bs : List (Nat × List Nat))
    (h0 : isSilent d0 = true) :
    ((∀ b ∈ bs, isSilent b.2 = true) → (∃ b ∈ bs, t0 + 3000 ≤ b.1) →
       runSilence initSilence ((t0, d0) :: bs) = ⟨none, true, 1⟩)
    ∧ (∀ mid tL dL, bs = mid ++ [(tL, dL)] → (∀ b ∈ mid, isSilent b.2 = true) →
         (∀ b ∈ bs, b.1 < t0 + 3000) → isSilent dL = false →
         runSilence initSilence ((t0, d0) :: bs) = initSilence) := by
  have harm : silenceStep initSilence t0 d0 = ⟨some (t0 + 3000), false, 0⟩ := by
    simp [silenceStep, initSilence, processBlock, h0]
  have hstep : ∀ bs', runSilence initSilence ((t0, d0) :: bs')
      = runSilence ⟨some (t0 + 3000), false, 0⟩ bs' := by
    intro bs'
    simp [runSilence, harm]
  constructor
  · intro hsil hex
    rw [hstep bs]
    exact runSilence_armed_fires (t0 + 3000) 0 bs hsil hex
  · intro mid tL dL hbs hmid hlt hloud
    subst hbs
    rw [hstep (mid ++ [(tL, dL)])]
    have hq : runSilence ⟨some (t0 + 3000), false, 0⟩ mid = ⟨some (t0 + 3000), false, 0⟩ :=
      runSilence_armed_quiet (t0 + 3000) 0 mid hmid
        (fun x hx => hlt x (List.mem_append_left _ hx))
    have hdL : ¬ t0 + 3000 ≤ tL :=
      Nat.not_le.mpr (hlt (tL, dL) (List.mem_append_right _ (List.mem_singleton_self _)))
    have hfin : silenceStep ⟨some (t0 + 3000), false, 0⟩ tL dL = initSilence := by
      simp [silenceStep, hdL, processBlock, hloud, initSilence]
    calc runSilence ⟨some (t0 + 3000), false, 0⟩ (mid ++ [(tL, dL)])
        = runSilence ⟨some (t0 + 3000), false, 0⟩ [(tL, dL)] := by
          simp [runSilence, List.foldl_append, show
            List.foldl (fun s b => silenceStep s b.1 b.2) ⟨some (t0 + 3000), false, 0⟩ mid
              = ⟨some (t0 + 3000), false, 0⟩ from hq]
      _ = initSilence := by simp [runSilence, hfin]

theorem C7_silence_timer_witness :
    (runSilence initSilence [(0, [0]), (1000, [0]), (3000, [0])] = ⟨none, true, 1⟩)
    ∧ (runSilence initSilence [(0, [0]), (1000, [100])] = initSilence) :=
  ⟨(C7_silence_timer 0 [0] [(1000, [0]), (3000, [0])] (by decide)).1 (by decide) (by decide),
   (C7_silence_timer 0 [0] [(1000, [100])] (by decide)).2 [] 1000 [100] rfl
     (by decide) (by decide) (by decide)⟩

theorem foldl_add_amount (l : List Expense) (init : ℚ) :
    l.foldl (fun sum e => sum + e.amount) init = init + (l.map Expense.amount).sum := by
  induction l generalizing init with
  | nil => simp
  | cons a l ih =>
      rw [List.foldl_cons, ih]
      simp [add_assoc]

theorem lookupTotal_nil (k : String) : lookupTotal [] k = 0 := rfl

theorem lookupTotal_cons (a : String × ℚ) (m : List (String × ℚ)) (k : String) :
    lookupTotal (a :: m) k = (if a.1 = k then a.2 else 0) + lookupTotal m k := by
  by_cases h : a.1 = k <;> simp [lookupTotal, List.filter_cons, h]

theorem lookupTotal_recordAdd (m : List (String × ℚ)) (k k' : String) (v : ℚ) :
    lookupTotal (recordAdd m k v) k' = lookupTotal m k' + (if k = k' then v else 0) := by
  induction m with
  | nil =>
      by_cases h : k = k' <;>
        simp [recordAdd, lookupTotal_cons, lookupTotal_nil, h]
  | cons a m ih =>
      obtain ⟨a1, a2⟩ := a
      by_cases hak : a1 = k
      · subst hak
        by_cases hk : a1 = k'
        · simp [recordAdd, hk, lookupTotal_cons, ih]
          ring
        · simp [recordAdd, hk, lookupTotal_cons, ih]
      · by_cases hk : k = k'
        · subst hk
          simp [recordAdd, hak, lookupTotal_cons, ih]
        · simp [recordAdd, hak, hk, lookupTotal_cons, ih]

theorem mem_keys_recordAdd (m : List (String × ℚ)) (k k' : String) (v : ℚ) :
    (k' ∈ (recordAdd m k v).map fun p => p.1) ↔ (k' ∈ m.map fun p => p.1) ∨ k' = k := by
  induction m with
  | nil => simp [recordAdd]
  | cons a m ih =>
      obtain ⟨a1, a2⟩ := a
      by_cases hak : a1 = k <;> simp [recordAdd, hak, ih] <;> tauto

theorem nodup_keys_recordAdd (m : List (String × ℚ)) (k : String) (v : ℚ)
    (h : (m.map fun p => p.1).Nodup) :
    ((recordAdd m k v).map fun p => p.1).Nodup := by
  induction m with
  | nil => simp [recordAdd]
  | cons a m ih =>
      obtain ⟨a1, a2⟩ := a
      simp only [List.map_cons, List.nodup_cons] at h
      by_cases hak : a1 = k
      · have hsame : ((recordAdd ((a1, a2) :: m) k v).map fun p => p.1)
            = ((a1, a2) :: m).map fun p => p.1 := by
          simp [recordAdd, hak]
        rw [hsame]
        simp only [List.map_cons, List.nodup_cons]
        exact ⟨h.1, h.2⟩
      · have hcons : recordAdd ((a1, a2) :: m) k v = (a1, a2) :: recordAdd m k v := by
          simp [recordAdd, hak]
        rw [hcons]
        simp only [List.map_cons, List.nodup_cons]
        refine ⟨?_, ih h.2⟩
        rw [mem_keys_recordAdd]
        rintro (hmem | heq)
        · exact h.1 hmem
        · exact hak heq

theorem snd_sum_recordAdd (m : List (String × ℚ)) (k : String) (v : ℚ) :
    ((recordAdd m k v).map fun p => p.2).sum = (m.map fun p => p.2).sum + v := by
  induction m with
  | nil => simp [recordAdd]
  | cons a m ih =>
      obtain ⟨a1, a2⟩ := a
      by_cases hak : a1 = k <;> simp [recordAdd, hak, ih] <;> ring

theorem lookupTotal_eq_zero_of_not_mem (m : List (String × ℚ)) (k : String)
    (h : k ∉ m.map fun p => p.1) : lookupTotal m k = 0 := by
  induction m with
  | nil => rfl
  | cons a m ih =>
      simp only [List.map_cons, List.mem_cons] at h
      push_neg at h
      rw [lookupTotal_cons, if_neg fun hh => h.1 hh.symm, zero_add]
      exact ih h.2

theorem lookupTotal_eq_of_mem (m : List (String × ℚ)) (k : String) (v : ℚ)
    (hnd : (m.map fun p => p.1).Nodup) (hmem : (k, v) ∈ m) :
    lookupTotal m k = v := by
  induction m with
  | nil => simp at hmem
  | cons a m ih =>
      obtain ⟨a1, a2⟩ := a
      simp only [List.map_cons, List.nodup_cons] at hnd
      rcases List.mem_cons.mp hmem with heq | hmem'
      · cases heq
        rw [lookupTotal_cons]
        have h0 : lookupTotal m k = 0 := lookupTotal_eq_zero_of_not_mem m k hnd.1
        simp [h0]
      · have hk : k ∈ m.map fun p => p.1 := by
          have := List.mem_map_of_mem (fun p : String × ℚ => p.1) hmem'
          simpa using this
        have hka : ¬ a1 = k := fun hh => hnd.1 (hh ▸ hk)
        rw [lookupTotal_cons, if_neg hka, zero_add]
        exact ih hnd.2 hmem'

theorem categoriesRecord_append_one (es : List Expense) (e : Expense) :
    categoriesRecord (es ++ [e])
      = recordAdd (categoriesRecord es) e.category_name e.amount := by
  simp [categoriesRecord, List.foldl_append]

theorem lookupTotal_categoriesRecord (es : List Expense) (k : String) :
    lookupTotal (categoriesRecord es) k
      = ((es.filter fun e => e.category_name == k).map Expense.amount).sum := by
  induction es using List.reverseRecOn with
  | nil => rfl
  | append_singleton es e ih =>
      rw [categoriesRecord_append_one, lookupTotal_recordAdd, ih]
      by_cases h : e.category_name = k <;>
        simp [List.filter_append, List.filter_cons, h]

theorem mem_keys_categoriesRecord (es : List Expense) (k : String) :
    (k ∈ (categoriesRecord es).map fun p => p.1) ↔ k ∈ es.map Expense.category_name := by
  induction es using List.reverseRecOn with
  | nil => simp [categoriesRecord]
  | append_singleton es e ih =>
      rw [categoriesRecord_append_one, mem_keys_recordAdd, ih]
      simp

theorem nodup_keys_categoriesRecord (es : List Expense) :
    ((categoriesRecord es).map fun p => p.1).Nodup := by
  induction es using List.reverseRecOn with
  | nil => simp [categoriesRecord]
  | append_singleton es e ih =>
      rw [categoriesRecord_append_one]
      exact nodup_keys_recordAdd _ _ _ ih

theorem snd_sum_categoriesRecord (es : List Expense) :
    ((categoriesRecord es).map fun p => p.2).sum = (es.map Expense.amount).sum := by
  induction es using List.reverseRecOn with
  | nil => rfl
  | append_singleton es e ih =>
      rw [categoriesRecord_append_one, snd_sum_recordAdd, ih]
      simp

/-- C2: the recomputed Summary is a faithful aggregate of the expense
collection it was computed from: `daily` is the sum of the amounts of exactly
the expenses whose date starts with the current `YYYY-MM-DD` string, and the
`byCategory` entries have pairwise distinct names, each entry's total is the
sum of the amounts of exactly the expenses with that category name, every
expense's category appears, and the totals add up to the grand total (no
double-counting, no omission).  Since every add/delete mutation funnels
through `saveLocalData`, which recomputes the summary from exactly the list
it persists, this holds after every operation sequence. -/
theorem C2_summary_partitions (today : String) (es : List Expense) :
    ((updateSummary today es).daily
        = ((es.filter fun e => strStartsWith e.date today).map Expense.amount).sum)
    ∧ (((updateSummary today es).byCategory.map CategoryTotal.total).sum
        = (es.map Expense.amount).sum)
    ∧ ((updateSummary today es).byCategory.map CategoryTotal.name).Nodup
    ∧ (∀ ct ∈ (updateSummary today es).byCategory,
        ct.total = ((es.filter fun e => e.category_name == ct.name).map Expense.amount).sum)
    ∧ (∀ e ∈ es, e.category_name ∈ (updateSummary today es).byCategory.map CategoryTotal.name) := by
  have hby : (updateSummary today es).byCategory
      = (categoriesRecord es).map fun p => (⟨p.1, p.2⟩ : CategoryTotal) := rfl
  have hname : (updateSummary today es).byCategory.map CategoryTotal.name
      = (categoriesRecord es).map fun p => p.1 := by
    rw [hby, List.map_map]
    rfl
  have htotal : (updateSummary today es).byCategory.map CategoryTotal.total
      = (categoriesRecord es).map fun p => p.2 := by
    rw [hby, List.map_map]
    rfl
  refine ⟨?_, ?_, ?_, ?_, ?_⟩
  · show (es.filter fun e => strStartsWith e.date today).foldl (fun sum e => sum + e.amount) 0
        = ((es.filter fun e => strStartsWith e.date today).map Expense.amount).sum
    rw [foldl_add_amount, zero_add]
  · rw [htotal, snd_sum_categoriesRecord]
  · rw [hname]
    exact nodup_keys_categoriesRecord es
  · intro ct hct
    rw [hby] at hct
    rcases List.mem_map.mp hct with ⟨p, hp, hpe⟩
    subst hpe
    show p.2 = ((es.filter fun e => e.category_name == p.1).map Expense.amount).sum
    have h1 : lookupTotal (categoriesRecord es) p.1 = p.2 :=
      lookupTotal_eq_of_mem (categoriesRecord es) p.1 p.2 (nodup_keys_categoriesRecord es) hp
    rw [← h1, lookupTotal_categoriesRecord]
  · intro e he
    rw [hname, mem_keys_categoriesRecord]
    exact List.mem_map_of_mem Expense.category_name he

theorem C2_summary_partitions_witness :
    ((updateSummary "2026-10-11" sampleExpenses).daily
      = ((sampleExpenses.filter fun e => strStartsWith e.date "2026-10-11").map
          Expense.amount).sum)
    ∧ (((updateSummary "2026-10-11" sampleExpenses).byCategory.map CategoryTotal.total).sum
      = (sampleExpenses.map Expense.amount).sum)
    ∧ ((⟨"Transporte", 60⟩ : CategoryTotal).total
      = ((sampleExpenses.filter fun e =>
            e.category_name == (⟨"Transporte", 60⟩ : CategoryTotal).name).map
          Expense.amount).sum)
    ∧ (⟨1, 40, "mercado", "Alimentação", "2026-10-11T10:00:00.000Z"⟩ : Expense).category_name
      ∈ (updateSummary "2026-10-11" sampleExpenses).byCategory.map CategoryTotal.name :=
  ⟨(C2_summary_partitions "2026-10-11" sampleExpenses).1,
   (C2_summary_partitions "2026-10-11" sampleExpenses).2.1,
   (C2_summary_partitions "2026-10-11" sampleExpenses).2.2.2.1 ⟨"Transporte", 60⟩
     (by simp [sampleExpenses, updateSummary, categoriesRecord, recordAdd]),
   (C2_summary_partitions "2026-10-11" sampleExpenses).2.2.2.2
     ⟨1, 40, "mercado", "Alimentação", "2026-10-11T10:00:00.000Z"⟩
     (by simp [sampleExpenses])⟩

end VozFinancas
